import Mathlib

/-!
Verification of `kudosx/claude-skill-browser-use`.

Part I embeds `scripts/create_zip_file.py` (the repository's source file):
a `Path` is its list of components, a filesystem is a list of entries, and
`create_zip` is the pure function from a filesystem to the list of archive
member names it writes.

Part II models, from the specification, the media-discovery pipeline the
spec describes (Cascade Controller, Pattern Extractor, Scroll Collector,
Predicate Filter, Acquisition Pool): that code is not in the repository, so
each definition is modelled from the spec's words.
-/

/-- A `pathlib.Path`, embedded as its tuple of components (`path.parts`). -/
structure PyPath where
  parts : List String
deriving DecidableEq, Repr

/-- `path.parent`: all components but the last. -/
def PyPath.parent (p : PyPath) : PyPath :=
  ⟨p.parts.dropLast⟩

/-- `path.relative_to(base)` for the case `create_zip` uses, where `base`
    is an ancestor of `path`: drop the leading `base` components. -/
def PyPath.relative_to (p base : PyPath) : PyPath :=
  ⟨p.parts.drop base.parts.length⟩

/-- One filesystem entry: its path and whether `path.is_file()` holds. -/
structure FSEntry where
  path : PyPath
  is_file : Bool
deriving DecidableEq, Repr

/-- `should_exclude` from `create_zip_file.py`: a path is excluded when
    some pattern is equal to one of the path's components
    (`pattern in path.parts`). -/
def should_exclude (exclude_patterns : List String) (path : PyPath) : Bool :=
  exclude_patterns.any (fun pattern => decide (pattern ∈ path.parts))

/-- `source_dir.rglob("*")` over an embedded filesystem `fs`: the entries
    strictly below `source_dir`. -/
def rglob (source_dir : PyPath) (fs : List FSEntry) : List FSEntry :=
  fs.filter (fun e =>
    decide (e.path.parts.take source_dir.parts.length = source_dir.parts ∧
            source_dir.parts.length < e.path.parts.length))

/-- `create_zip` from `create_zip_file.py`, returning the list of archive
    member names (`arcname`s) written, in the order they are written:
    every regular file under `source_dir` whose path is not excluded,
    named relative to `source_dir.parent`. -/
def create_zip (source_dir : PyPath) (fs : List FSEntry)
    (exclude_patterns : Option (List String)) : List PyPath :=
  let patterns := exclude_patterns.getD []
  ((rglob source_dir fs).filter
      (fun e => e.is_file && !(should_exclude patterns e.path))).map
    (fun e => e.path.relative_to source_dir.parent)

-- Sanity checks on concrete inputs.
example :
    should_exclude [".git"] ⟨["home", ".git", "a.txt"]⟩ = true := by decide

example :
    should_exclude [".git"] ⟨["home", "mygit", "a.txt"]⟩ = false := by decide

example :
    create_zip ⟨["r", "d"]⟩
      [⟨⟨["r", "d", "a.txt"]⟩, true⟩,
       ⟨⟨["r", "d", "sub"]⟩, false⟩,
       ⟨⟨["r", "d", "sub", "b.txt"]⟩, true⟩,
       ⟨⟨["r", "e", "c.txt"]⟩, true⟩]
      (some ["sub"]) =
    [⟨["d", "a.txt"]⟩] := by decide

/-- Membership in a `create_zip` archive, characterised entry by entry. -/
lemma mem_create_zip_iff (sd : PyPath) (fs : List FSEntry)
    (eps : Option (List String)) (arc : PyPath) :
    arc ∈ create_zip sd fs eps ↔
      ∃ e ∈ rglob sd fs, e.is_file = true ∧
        should_exclude (eps.getD []) e.path = false ∧
        arc = e.path.relative_to sd.parent := by
  simp only [create_zip, List.mem_map, List.mem_filter, Bool.and_eq_true,
    Bool.not_eq_true']
  constructor
  · rintro ⟨e, ⟨⟨he, hf, hx⟩, rfl⟩⟩
    exact ⟨e, he, hf, hx, rfl⟩
  · rintro ⟨e, he, hf, hx, rfl⟩
    exact ⟨e, ⟨he, hf, hx⟩, rfl⟩

/-- `should_exclude` is false exactly when no pattern equals a whole path
    component. -/
lemma should_exclude_eq_false_iff (pats : List String) (p : PyPath) :
    should_exclude pats p = false ↔ ∀ pat ∈ pats, pat ∉ p.parts := by
  simp [should_exclude]

/-- C1: `create_zip` adds exactly the regular files under `source_dir`
    none of whose whole path components equals an exclude pattern;
    exclusion is by exact equality with a path component, never by
    substring match. -/
theorem C1_create_zip_exact_component_exclusion
    (sd : PyPath) (fs : List FSEntry) (pats : List String) (arc : PyPath) :
    arc ∈ create_zip sd fs (some pats) ↔
      ∃ e ∈ rglob sd fs, e.is_file = true ∧
        (∀ pat ∈ pats, pat ∉ e.path.parts) ∧
        arc = e.path.relative_to sd.parent := by
  rw [mem_create_zip_iff]
  constructor
  · rintro ⟨e, he, hf, hx, rfl⟩
    exact ⟨e, he, hf, (should_exclude_eq_false_iff pats e.path).mp hx, rfl⟩
  · rintro ⟨e, he, hf, hx, rfl⟩
    exact ⟨e, he, hf, (should_exclude_eq_false_iff pats e.path).mpr hx, rfl⟩

/-- Every entry `rglob` returns lies strictly below `source_dir`. -/
lemma mem_rglob (sd : PyPath) (fs : List FSEntry) (e : FSEntry)
    (he : e ∈ rglob sd fs) :
    e.path.parts.take sd.parts.length = sd.parts ∧
      sd.parts.length < e.path.parts.length := by
  have := (List.mem_filter.mp he).2
  simpa using of_decide_eq_true this

/-- C9: each archive member name is the file path relative to
    `source_dir.parent`, so it begins with the basename of `source_dir`. -/
theorem C9_arcname_starts_with_source_basename
    (sd : PyPath) (fs : List FSEntry) (eps : Option (List String))
    (arc : PyPath) (hsd : sd.parts ≠ []) (harc : arc ∈ create_zip sd fs eps) :
    arc.parts.head? = sd.parts.getLast? := by
  obtain ⟨e, he, -, -, rfl⟩ := (mem_create_zip_iff sd fs eps arc).mp harc
  obtain ⟨htake, hlen⟩ := mem_rglob sd fs e he
  have hn : 0 < sd.parts.length := List.length_pos.mpr hsd
  show (e.path.parts.drop sd.parent.parts.length).head? = _
  have hplen : sd.parent.parts.length = sd.parts.length - 1 := by
    simp [PyPath.parent]
  rw [hplen, List.head?_drop, List.getLast?_eq_getElem?]
  have hlt : sd.parts.length - 1 < sd.parts.length := by omega
  calc e.path.parts[sd.parts.length - 1]?
      = (e.path.parts.take sd.parts.length)[sd.parts.length - 1]? := by
        rw [List.getElem?_take, if_pos hlt]
    _ = sd.parts[sd.parts.length - 1]? := by rw [htake]

/-- Concrete instance of `C9_arcname_starts_with_source_basename`. -/
theorem C9_witness :
    (⟨["r", "d"]⟩ : PyPath).parts ≠ [] ∧
      (⟨["d", "a.txt"]⟩ : PyPath) ∈
        create_zip ⟨["r", "d"]⟩ [⟨⟨["r", "d", "a.txt"]⟩, true⟩] none ∧
      (⟨["d", "a.txt"]⟩ : PyPath).parts.head? =
        (⟨["r", "d"]⟩ : PyPath).parts.getLast? :=
  ⟨by decide, by decide,
    C9_arcname_starts_with_source_basename ⟨["r", "d"]⟩
      [⟨⟨["r", "d", "a.txt"]⟩, true⟩] none ⟨["d", "a.txt"]⟩
      (by decide) (by decide)⟩

/-- C10: calling `create_zip` with `exclude_patterns = None` is the same
    as calling it with the empty pattern list: nothing is excluded and
    every regular file under `source_dir` is archived. -/
theorem C10_none_same_as_empty (sd : PyPath) (fs : List FSEntry) :
    create_zip sd fs none = create_zip sd fs (some []) ∧
      (∀ p : PyPath, should_exclude [] p = false) ∧
      create_zip sd fs none =
        ((rglob sd fs).filter (fun e => e.is_file)).map
          (fun e => e.path.relative_to sd.parent) := by
  refine ⟨rfl, fun p => rfl, ?_⟩
  unfold create_zip
  simp [should_exclude]

/-! ## Part II: the media-discovery pipeline, modelled from the spec -/

/-- Modelled from the spec: a Candidate is a locator (identity for dedup),
    title, provenance tag, and optional metadata — a raw duration
    representation, pixel dimensions, and a timestamp. -/
structure Candidate where
  locator : String
  title : String
  provenance : String
  duration : Option String
  width : Option Nat
  height : Option Nat
  timestamp : Option Int
deriving DecidableEq, Repr

/-- Modelled from the spec: a SearchRequest's optional filters — a duration
    range in minutes, the minimum pixel dimension of the active tier, and
    an optional date range. -/
structure Filters where
  minDurationMinutes : Option ℚ
  maxDurationMinutes : Option ℚ
  minDimension : Nat
  dateFrom : Option Int
  dateTo : Option Int
deriving DecidableEq

/-- Modelled from the spec: a SearchRequest is a query string, a target
    count, and the filters. -/
structure SearchRequest where
  query : String
  target : Nat
  filters : Filters
deriving DecidableEq

/-- Modelled from the spec: insert a candidate into the insertion-ordered,
    locator-unique CandidateSet — appended at the end when its locator is
    new, dropped when the locator was already seen. -/
def addCandidate (cs : List Candidate) (c : Candidate) : List Candidate :=
  if c.locator ∈ cs.map Candidate.locator then cs else cs ++ [c]

/-- Modelled from the spec: merge one provider batch into the CandidateSet
    via the Dedup Set, preserving batch (discovery) order. -/
def mergeBatch (cs : List Candidate) (batch : List Candidate) : List Candidate :=
  batch.foldl addCandidate cs

/-- Modelled from the spec: merge a sequence of provider batches, in
    order, into an initial CandidateSet. -/
def mergeAll (init : List Candidate) (batches : List (List Candidate)) :
    List Candidate :=
  batches.foldl mergeBatch init

/-- Insert a locator into a locator list when first seen. -/
def insertLoc (acc : List String) (l : String) : List String :=
  if l ∈ acc then acc else acc ++ [l]

/-- Keep the first occurrence of each locator, in order of first sight. -/
def firstSeenDedup (ls : List String) : List String :=
  ls.foldl insertLoc []

lemma map_locator_addCandidate (cs : List Candidate) (c : Candidate) :
    (addCandidate cs c).map Candidate.locator =
      insertLoc (cs.map Candidate.locator) c.locator := by
  unfold addCandidate insertLoc
  split <;> simp_all

lemma map_locator_mergeBatch (batch cs : List Candidate) :
    (mergeBatch cs batch).map Candidate.locator =
      (batch.map Candidate.locator).foldl insertLoc
        (cs.map Candidate.locator) := by
  induction batch generalizing cs with
  | nil => rfl
  | cons c rest ih =>
    simp only [mergeBatch, List.foldl_cons, List.map_cons]
    rw [← mergeBatch, ih, map_locator_addCandidate]

lemma map_locator_mergeAll (batches : List (List Candidate))
    (init : List Candidate) :
    (mergeAll init batches).map Candidate.locator =
      ((batches.map (List.map Candidate.locator)).flatten).foldl insertLoc
        (init.map Candidate.locator) := by
  induction batches generalizing init with
  | nil => rfl
  | cons b rest ih =>
    simp only [mergeAll, List.foldl_cons, List.map_cons, List.flatten_cons,
      List.foldl_append]
    rw [← mergeAll, ih, map_locator_mergeBatch]

lemma mem_insertLoc (acc : List String) (l x : String) :
    x ∈ insertLoc acc l ↔ x ∈ acc ∨ x = l := by
  unfold insertLoc
  split <;> rename_i h
  · constructor
    · exact Or.inl
    · rintro (hx | rfl)
      · exact hx
      · exact h
  · simp

lemma mem_foldl_insertLoc (ls acc : List String) (x : String) :
    x ∈ ls.foldl insertLoc acc ↔ x ∈ acc ∨ x ∈ ls := by
  induction ls generalizing acc with
  | nil => simp
  | cons l rest ih =>
    simp only [List.foldl_cons, ih, mem_insertLoc, List.mem_cons]
    tauto

lemma nodup_insertLoc (acc : List String) (l : String) (h : acc.Nodup) :
    (insertLoc acc l).Nodup := by
  unfold insertLoc
  split <;> rename_i hm
  · exact h
  · simpa using List.Nodup.append h (List.nodup_singleton l) (by simpa using hm)

lemma nodup_foldl_insertLoc (ls acc : List String) (h : acc.Nodup) :
    (ls.foldl insertLoc acc).Nodup := by
  induction ls generalizing acc with
  | nil => exact h
  | cons l rest ih => exact ih _ (nodup_insertLoc acc l h)

/-- C2: merging any sequence of provider batches — overlapping locators
    included — yields a CandidateSet whose locators are pairwise distinct,
    are exactly the locators occurring in some batch (each counted once),
    and stand in first-seen discovery order. -/
theorem C2_dedup_first_seen_once (batches : List (List Candidate)) :
    ((mergeAll [] batches).map Candidate.locator).Nodup ∧
      (∀ l, l ∈ (mergeAll [] batches).map Candidate.locator ↔
        ∃ b ∈ batches, l ∈ b.map Candidate.locator) ∧
      (mergeAll [] batches).map Candidate.locator =
        firstSeenDedup ((batches.map (List.map Candidate.locator)).flatten) ∧
      ∀ l, l ∈ (mergeAll [] batches).map Candidate.locator →
        ((mergeAll [] batches).map Candidate.locator).count l = 1 := by
  have hrep := map_locator_mergeAll batches []
  simp only [List.map_nil] at hrep
  refine ⟨?_, ?_, ?_, ?_⟩
  · rw [hrep]; exact nodup_foldl_insertLoc _ _ List.nodup_nil
  · intro l
    rw [hrep, mem_foldl_insertLoc]
    simp [List.mem_flatten]
  · exact hrep
  · intro l hl
    refine List.count_eq_one_of_mem ?_ hl
    rw [hrep]; exact nodup_foldl_insertLoc _ _ List.nodup_nil

/-- Concrete instance of `C2_dedup_first_seen_once`: two overlapping
    batches keep the shared locator once, in first-seen order. -/
theorem C2_witness :
    ((mergeAll []
        [[⟨"a", "", "p1", none, none, none, none⟩],
         [⟨"a", "", "p2", none, none, none, none⟩,
          ⟨"b", "", "p2", none, none, none, none⟩]]).map
      Candidate.locator).count "a" = 1 :=
  (C2_dedup_first_seen_once
      [[⟨"a", "", "p1", none, none, none, none⟩],
       [⟨"a", "", "p2", none, none, none, none⟩,
        ⟨"b", "", "p2", none, none, none, none⟩]]).2.2.2 "a" (by decide)

/-- Split a character list into the groups between colons. -/
def splitColon : List Char → List (List Char)
  | [] => [[]]
  | c :: rest =>
    match splitColon rest with
    | [] => if c = ':' then [[], []] else [[c]]
    | g :: gs => if c = ':' then [] :: g :: gs else (c :: g) :: gs

/-- Parse a nonempty all-digit character group as a natural number. -/
def parseNatChars (cs : List Char) : Option Nat :=
  if cs ≠ [] ∧ cs.all Char.isDigit then
    some (cs.foldl (fun n c => n * 10 + (c.toNat - 48)) 0)
  else none

/-- Modelled from the spec: parse a free-form duration representation
    (`MM:SS` or `HH:MM:SS`) into minutes; anything else is unparseable. -/
def parseDuration (s : String) : Option ℚ :=
  match (splitColon s.toList).map parseNatChars with
  | [some m, some sec] => some ((m : ℚ) + (sec : ℚ) / 60)
  | [some h, some m, some sec] =>
      some ((h : ℚ) * 60 + (m : ℚ) + (sec : ℚ) / 60)
  | _ => none

/-- Modelled from the spec: a duration filter is active when either bound
    of the duration range is present. -/
def durationFilterActive (f : Filters) : Bool :=
  f.minDurationMinutes.isSome || f.maxDurationMinutes.isSome

/-- Modelled from the spec: the Predicate Filter's duration check — with
    no active duration filter every candidate passes; with one active, a
    candidate lacking a parseable duration is rejected, and otherwise its
    parsed minutes must satisfy the present bounds. -/
def durationOk (f : Filters) (c : Candidate) : Bool :=
  if durationFilterActive f then
    match c.duration.bind parseDuration with
    | none => false
    | some m =>
        (match f.minDurationMinutes with
         | none => true
         | some lo => decide (lo ≤ m)) &&
        (match f.maxDurationMinutes with
         | none => true
         | some hi => decide (m ≤ hi))
  else true

/-- Modelled from the spec: the Predicate Filter's dimension check —
    accept when `max(width, height)` reaches the active tier's minimum
    dimension; a candidate lacking dimension metadata passes only a zero
    minimum. -/
def dimensionOk (f : Filters) (c : Candidate) : Bool :=
  match c.width, c.height with
  | some w, some h => decide (f.minDimension ≤ max w h)
  | _, _ => decide (f.minDimension = 0)

/-- Modelled from the spec: the recency check — the timestamp must fall
    within the optional `[dateFrom, dateTo]` bounds, each independently
    satisfiable. -/
def dateOk (f : Filters) (c : Candidate) : Bool :=
  (match f.dateFrom, c.timestamp with
   | some lo, some t => decide (lo ≤ t)
   | some _, none => false
   | none, _ => true) &&
  (match f.dateTo, c.timestamp with
   | some hi, some t => decide (t ≤ hi)
   | some _, none => false
   | none, _ => true)

/-- Modelled from the spec: the Predicate Filter is the pure conjunction
    of the duration, dimension and recency checks. -/
def passes (f : Filters) (c : Candidate) : Bool :=
  durationOk f c && dimensionOk f c && dateOk f c

example : parseDuration "1:30" = some (3 / 2 : ℚ) := by
  rw [show parseDuration "1:30" =
    some (((1 : Nat) : ℚ) + ((30 : Nat) : ℚ) / 60) from rfl]
  norm_num

example : parseDuration "90" = none := by decide
example : parseDuration "abc" = none := by decide

/-- C5: duration parsing maps `"1:30"` to 1.5 minutes and `"1:02:00"` to
    62 minutes, and a candidate with unparseable duration is rejected by
    the duration check exactly when a duration filter is active. -/
theorem C5_duration_parsing_and_unparseable
    (f : Filters) (c : Candidate)
    (hun : c.duration.bind parseDuration = none) :
    parseDuration "1:30" = some (3 / 2 : ℚ) ∧
      parseDuration "1:02:00" = some (62 : ℚ) ∧
      (durationFilterActive f = true → durationOk f c = false) ∧
      (durationFilterActive f = false → durationOk f c = true) := by
  refine ⟨?_, ?_, ?_, ?_⟩
  · rw [show parseDuration "1:30" =
      some (((1 : Nat) : ℚ) + ((30 : Nat) : ℚ) / 60) from rfl]
    norm_num
  · rw [show parseDuration "1:02:00" =
      some (((1 : Nat) : ℚ) * 60 + ((2 : Nat) : ℚ) + ((0 : Nat) : ℚ) / 60)
      from rfl]
    norm_num
  · intro ha
    unfold durationOk
    rw [if_pos ha, hun]
  · intro ha
    unfold durationOk
    rw [if_neg (by simp [ha])]

/-- Concrete instance of `C5_duration_parsing_and_unparseable` at a
    candidate whose raw duration `"n/a"` does not parse, under an active
    minimum-duration filter. -/
theorem C5_witness :
    durationOk ⟨some 1, none, 0, none, none⟩
      ⟨"a", "", "p1", some "n/a", none, none, none⟩ = false :=
  (C5_duration_parsing_and_unparseable
      ⟨some 1, none, 0, none, none⟩
      ⟨"a", "", "p1", some "n/a", none, none, none⟩
      (by decide)).2.2.1 (by decide)

/-- C8: the dimension check accepts a candidate with dimension metadata
    exactly when `max(width, height)` reaches the tier's minimum, and a
    candidate lacking dimension metadata exactly when the tier's minimum
    is zero. -/
theorem C8_dimension_check (f : Filters) (c : Candidate) :
    (∀ w h, c.width = some w → c.height = some h →
        (dimensionOk f c = true ↔ f.minDimension ≤ max w h)) ∧
      (c.width = none ∨ c.height = none →
        (dimensionOk f c = true ↔ f.minDimension = 0)) := by
  constructor
  · intro w h hw hh
    simp [dimensionOk, hw, hh]
  · intro hmiss
    rcases hmiss with hw | hh
    · rcases hc : c.height with _ | h <;> simp [dimensionOk, hw, hc]
    · rcases hc : c.width with _ | w <;> simp [dimensionOk, hc, hh]

/-- Concrete instances of `C8_dimension_check`: a 800×1200 candidate
    against a minimum of 1000, and a dimensionless candidate against the
    same nonzero minimum. -/
theorem C8_witness :
    (dimensionOk ⟨none, none, 1000, none, none⟩
        ⟨"a", "", "p1", none, some 800, some 1200, none⟩ = true ↔
      (1000 : Nat) ≤ max 800 1200) ∧
      (dimensionOk ⟨none, none, 1000, none, none⟩
          ⟨"b", "", "p1", none, none, none, none⟩ = true ↔
        (1000 : Nat) = 0) :=
  ⟨(C8_dimension_check ⟨none, none, 1000, none, none⟩
        ⟨"a", "", "p1", none, some 800, some 1200, none⟩).1 800 1200 rfl rfl,
    (C8_dimension_check ⟨none, none, 1000, none, none⟩
        ⟨"b", "", "p1", none, none, none, none⟩).2 (Or.inl rfl)⟩

/-- Decode backslash-escape sequences in a raw match. -/
def decodeEscapes : List Char → List Char
  | [] => []
  | '\\' :: c :: rest => c :: decodeEscapes rest
  | c :: rest => c :: decodeEscapes rest

/-- Does the character list start with the given pattern? -/
def startsWithChars : List Char → List Char → Bool
  | _, [] => true
  | [], _ :: _ => false
  | c :: cs, p :: ps => c = p && startsWithChars cs ps

/-- A token that parses as a number (a candidate width or height). -/
def isNumericToken (cs : List Char) : Bool :=
  (parseNatChars cs).isSome

/-- A token shaped like a locator: a URL or an inline-encoded payload. -/
def looksLikeLocator (cs : List Char) : Bool :=
  startsWithChars cs "http".toList || startsWithChars cs "data:".toList

/-- Modelled from the spec: the Pattern Extractor's skip rules — reject a
    locator on a low-resolution thumbnail host, an inline-encoded payload
    too small to be genuine content, or a preview-only path shape. -/
def isSkippedLocator (cs : List Char) : Bool :=
  startsWithChars cs "https://thumb".toList ||
  (startsWithChars cs "data:".toList && decide (cs.length < 64)) ||
  startsWithChars cs "/preview/".toList

/-- Fuel-indexed scan of the token stream for structural triples
    `[locator, width, height]`; every step consumes at least one token,
    so token-count fuel never runs out early. -/
def extractScanFuel : Nat → List (List Char) → List (List Char)
  | 0, _ => []
  | _ + 1, [] => []
  | _ + 1, [_] => []
  | _ + 1, [_, _] => []
  | fuel + 1, loc :: w :: h :: rest =>
    if isNumericToken w && isNumericToken h && looksLikeLocator loc &&
        !(isSkippedLocator loc) then
      decodeEscapes loc :: extractScanFuel fuel rest
    else
      extractScanFuel fuel (w :: h :: rest)

/-- Modelled from the spec: scan the token stream for structural triples
    `[locator, width, height]`, keep locators surviving the skip rules,
    and decode their escape sequences, in document order. -/
def extractScan (toks : List (List Char)) : List (List Char) :=
  extractScanFuel toks.length toks

/-- Split a character list into whitespace-separated groups. -/
def splitSpace : List Char → List (List Char)
  | [] => [[]]
  | c :: rest =>
    match splitSpace rest with
    | [] => if c = ' ' then [[], []] else [[c]]
    | g :: gs => if c = ' ' then [] :: g :: gs else (c :: g) :: gs

/-- Modelled from the spec: the Pattern Extractor — a pure function from
    raw rendered markup and an extraction limit to the ordered list of
    candidate locators, truncated to the limit. -/
def Extractor (markup : String) (limit : Nat) : List String :=
  ((extractScan ((splitSpace markup.toList).filter
      (fun g => !g.isEmpty))).map (fun cs => String.mk cs)).take limit

example :
    Extractor
      ("junk https://img.example.com/full1.jpg 1920 1080 x " ++
       "https://thumb.example.com/t.jpg 100 100 end " ++
       "https://img.example.com/full2.jpg 800 600") 10 =
    ["https://img.example.com/full1.jpg",
     "https://img.example.com/full2.jpg"] := by decide

/-- C3: the Pattern Extractor is deterministic — it is a pure function of
    the markup string and the extraction limit, with no hidden state, so
    two calls on identical input return the identical ordered list. -/
theorem C3_extractor_deterministic (markup : String) (limit : Nat) :
    Extractor markup limit = Extractor markup limit :=
  rfl

/-- Modelled from the spec: merge a provider batch into the CandidateSet
    via the Dedup Set, admitting only filter-passing candidates. -/
def mergeFiltered (req : SearchRequest) (cs : List Candidate)
    (batch : List Candidate) : List Candidate :=
  mergeBatch cs (batch.filter (passes req.filters))

/-- Modelled from the spec: the Cascade Controller — attempt providers in
    priority order, merging each batch through dedup and filter, stopping
    as soon as the CandidateSet reaches the target or providers are
    exhausted. Returns the final CandidateSet and the list of invoked
    provider indices, numbered from `idx`. -/
def runCascade (req : SearchRequest) (cs : List Candidate)
    (providers : List (SearchRequest → List Candidate)) (idx : Nat) :
    List Candidate × List Nat :=
  match providers with
  | [] => (cs, [])
  | p :: rest =>
    if req.target ≤ cs.length then (cs, [])
    else
      let r := runCascade req (mergeFiltered req cs (p req)) rest (idx + 1)
      (r.1, idx :: r.2)

lemma runCascade_stop (req : SearchRequest) (cs : List Candidate)
    (providers : List (SearchRequest → List Candidate)) (idx : Nat)
    (h : req.target ≤ cs.length) :
    runCascade req cs providers idx = (cs, []) := by
  cases providers <;> simp [runCascade, h]

/-- C4: when the first attempted tier alone yields at least `target`
    filter-passing unique candidates, every invoked provider index is the
    first one — no later tier is ever invoked — and, in general, the
    cascade stops only once the CandidateSet reaches the target or all
    providers have been invoked. -/
theorem C4_cascade_short_circuit (req : SearchRequest)
    (p : SearchRequest → List Candidate)
    (rest : List (SearchRequest → List Candidate))
    (h : req.target ≤ (mergeFiltered req [] (p req)).length) :
    (∀ i ∈ (runCascade req [] (p :: rest) 0).2, i = 0) ∧
      ∀ providers cs idx,
        req.target ≤ (runCascade req cs providers idx).1.length ∨
          (runCascade req cs providers idx).2.length = providers.length := by
  constructor
  · intro i hi
    by_cases h0 : req.target ≤ ([] : List Candidate).length
    · rw [runCascade_stop req [] (p :: rest) 0 h0] at hi
      simp at hi
    · simp only [runCascade, if_neg h0,
        runCascade_stop req (mergeFiltered req [] (p req)) rest 1 h] at hi
      simpa using hi
  · intro providers
    induction providers with
    | nil =>
      intro cs idx
      right
      rfl
    | cons q qs ih =>
      intro cs idx
      by_cases hc : req.target ≤ cs.length
      · left
        rw [runCascade_stop req cs (q :: qs) idx hc]
        exact hc
      · rcases ih (mergeFiltered req cs (q req)) (idx + 1) with hl | hr
        · left
          simpa [runCascade, hc] using hl
        · right
          simp [runCascade, hc, hr]

/-- Concrete instance of `C4_cascade_short_circuit`: with target 1 and a
    first provider returning one passing candidate, only index 0 is ever
    invoked. -/
theorem C4_witness :
    (∀ i ∈ (runCascade ⟨"cats", 1, ⟨none, none, 0, none, none⟩⟩ []
        [fun _ => [⟨"a", "", "p1", none, none, none, none⟩],
         fun _ => [⟨"b", "", "p2", none, none, none, none⟩]] 0).2, i = 0) ∧
      ∀ providers cs idx,
        (⟨"cats", 1, ⟨none, none, 0, none, none⟩⟩ : SearchRequest).target ≤
            (runCascade ⟨"cats", 1, ⟨none, none, 0, none, none⟩⟩ cs providers
              idx).1.length ∨
          (runCascade ⟨"cats", 1, ⟨none, none, 0, none, none⟩⟩ cs providers
              idx).2.length = providers.length :=
  C4_cascade_short_circuit ⟨"cats", 1, ⟨none, none, 0, none, none⟩⟩
    (fun _ => [⟨"a", "", "p1", none, none, none, none⟩])
    [fun _ => [⟨"b", "", "p2", none, none, none, none⟩]] (by decide)

/-- Modelled from the spec: a DownloadTask — an index for deterministic
    naming, a source locator, and a destination directory. -/
structure DownloadTask where
  index : Nat
  locator : String
  destDir : String
deriving DecidableEq, Repr

/-- Modelled from the spec: a DownloadResult — the task index, a success
    flag, the resulting file path on success, an error summary on
    failure. -/
structure DownloadResult where
  index : Nat
  success : Bool
  path : Option String
  error : Option String
deriving DecidableEq, Repr

/-- Modelled from the spec: the Acquisition Pool — each task is executed
    in full isolation, so the per-task outcome function is applied to each
    task independently and one task's failure cannot abort or remove any
    sibling task's result. -/
def runPool (runTask : DownloadTask → DownloadResult)
    (tasks : List DownloadTask) : List DownloadResult :=
  tasks.map runTask

lemma countP_bool_split {α : Type} (p : α → Bool) (l : List α) :
    l.countP p + l.countP (fun a => !p a) = l.length := by
  induction l with
  | nil => rfl
  | cons a l ih =>
    by_cases h : p a = true <;> simp [List.countP_cons, h, ← ih] <;> omega

/-- C6: failures are isolated — with 10 tasks of which exactly one fails,
    the pool returns exactly 9 successes and 1 failure, every task has a
    result, and each task's result depends only on that task. -/
theorem C6_acquisition_isolation (runTask : DownloadTask → DownloadResult)
    (tasks : List DownloadTask)
    (h10 : tasks.length = 10)
    (h1 : tasks.countP (fun t => !(runTask t).success) = 1) :
    (runPool runTask tasks).countP (fun r => r.success) = 9 ∧
      (runPool runTask tasks).countP (fun r => !r.success) = 1 ∧
      (runPool runTask tasks).length = tasks.length ∧
      ∀ i : Nat, (runPool runTask tasks)[i]? = (tasks[i]?).map runTask := by
  have hmap1 : (runPool runTask tasks).countP (fun r => r.success) =
      tasks.countP (fun t => (runTask t).success) :=
    List.countP_map (fun r => DownloadResult.success r) runTask tasks
  have hmap2 : (runPool runTask tasks).countP (fun r => !r.success) =
      tasks.countP (fun t => !(runTask t).success) :=
    List.countP_map (fun r => !DownloadResult.success r) runTask tasks
  have hsplit := countP_bool_split (fun t => (runTask t).success) tasks
  refine ⟨?_, ?_, List.length_map tasks runTask, ?_⟩
  · rw [hmap1]
    omega
  · rw [hmap2, h1]
  · intro i
    exact List.getElem?_map runTask tasks i

/-- The ten concrete tasks for the `C6_acquisition_isolation` instance. -/
def wTasks : List DownloadTask :=
  (List.range 10).map (fun i => ⟨i, "u", "d"⟩)

/-- The concrete outcome function in which exactly task 4 times out. -/
def wRun (t : DownloadTask) : DownloadResult :=
  if t.index = 4 then ⟨t.index, false, none, some "timeout"⟩
  else ⟨t.index, true, some "file", none⟩

/-- Concrete instance of `C6_acquisition_isolation`: ten tasks, task 4
    always failing, give exactly 9 successes. -/
theorem C6_witness :
    (runPool wRun wTasks).countP (fun r => r.success) = 9 :=
  (C6_acquisition_isolation wRun wTasks (by decide) (by decide)).1

/-- Modelled from the spec: the Scroll Collector — scroll, pause, extract
    the next batch, merge new unique filter-passing candidates; stop when
    the CandidateSet reaches the target or the scroll-iteration budget is
    exhausted. Returns the final CandidateSet and the number of scroll
    iterations performed. -/
def scrollLoop (pageBatches : Nat → List Candidate) (req : SearchRequest)
    (cs : List Candidate) (budget : Nat) (iter : Nat) :
    List Candidate × Nat :=
  match budget with
  | 0 => (cs, 0)
  | b + 1 =>
    if req.target ≤ cs.length then (cs, 0)
    else
      let r := scrollLoop pageBatches req
        (mergeFiltered req cs (pageBatches iter)) b (iter + 1)
      (r.1, r.2 + 1)

/-- C7: the scroll loop always terminates — it performs at most `budget`
    iterations, it stops only with the target reached or the budget
    exhausted (returning the short result rather than an error), and it
    performs no iteration at all once the target is already met. -/
theorem C7_scroll_bounded_termination (pageBatches : Nat → List Candidate)
    (req : SearchRequest) (cs : List Candidate) (budget iter : Nat) :
    (scrollLoop pageBatches req cs budget iter).2 ≤ budget ∧
      (req.target ≤ (scrollLoop pageBatches req cs budget iter).1.length ∨
        (scrollLoop pageBatches req cs budget iter).2 = budget) ∧
      (req.target ≤ cs.length →
        (scrollLoop pageBatches req cs budget iter).2 = 0) := by
  induction budget generalizing cs iter with
  | zero => exact ⟨Nat.le_refl 0, Or.inr rfl, fun _ => rfl⟩
  | succ b ih =>
    by_cases hc : req.target ≤ cs.length
    · refine ⟨?_, Or.inl ?_, fun _ => ?_⟩ <;> simp [scrollLoop, hc]
    · obtain ⟨ih1, ih2, -⟩ :=
        ih (mergeFiltered req cs (pageBatches iter)) (iter + 1)
      refine ⟨?_, ?_, fun h => absurd h hc⟩
      · simp only [scrollLoop, if_neg hc]
        omega
      · rcases ih2 with hl | hr
        · left
          simpa [scrollLoop, hc] using hl
        · right
          simp [scrollLoop, hc, hr]

/-- Concrete instance of `C7_scroll_bounded_termination`: with the target
    already met, the loop performs zero iterations. -/
theorem C7_witness :
    (scrollLoop (fun _ => []) ⟨"q", 0, ⟨none, none, 0, none, none⟩⟩ []
        5 0).2 = 0 :=
  (C7_scroll_bounded_termination (fun _ => [])
      ⟨"q", 0, ⟨none, none, 0, none, none⟩⟩ [] 5 0).2.2 (by decide)
